import Mathlib

/-!
Shallow embedding of the ccmanager core (Go) in Lean 4, together with
theorems settling the frozen claims about it.

Conventions used throughout:
* Go `time.Time` / `time.Duration` values are modelled as `Int` nanoseconds
  (Go durations are int64 nanosecond counts; `t.After u` is `t > u`,
  `t.Sub u` is `t - u`).
* Go `int`/`int64` counters are modelled as `Int` (no claim exercises
  overflow; token counters stay far below 2^63).
* Compiled regular expressions are modelled as Boolean matchers
  `String → Bool`; the classification logic (`DetectState`) is translated
  exactly, and the concrete matcher list of `NewDetector` models each Go
  regex by a literal-substring / line-suffix test faithful to the pattern.
* A Go `map[K]V` whose reads use the zero-value-on-missing idiom is
  modelled as a total function with the zero value for absent keys;
  a map read through the `, ok` idiom is modelled as `K → Option V`.
-/

namespace Ccmanager

/-- Boolean sublist-of-contiguous-characters test: `containsSub needle hay`
is true when `needle` occurs contiguously inside `hay`. -/
def containsSub : List Char → List Char → Bool
  | needle, [] => needle.isEmpty
  | needle, hay@(_ :: t) => needle.isPrefixOf hay || containsSub needle t

/-- String form of `containsSub`. -/
def strContainsSub (needle hay : String) : Bool :=
  containsSub needle.data hay.data

/-- Splitter worker: `cur` holds the current chunk reversed; a chunk is cut
as soon as its suffix equals the separator (leftmost, non-overlapping). -/
def splitOnAux (sep : List Char) (cur : List Char) : List Char → List (List Char)
  | [] => [cur.reverse]
  | x :: t =>
    let cur2 := x :: cur
    if sep.reverse.isPrefixOf cur2 then
      (cur2.drop sep.length).reverse :: splitOnAux sep [] t
    else
      splitOnAux sep cur2 t

/-- Split on a non-empty separator, exactly the semantics of Go
`strings.Split` / Lean `String.splitOn` (kernel-reducible replacement). -/
def strSplitOn (s sep : String) : List String :=
  if sep.data.isEmpty then [s]
  else (splitOnAux sep.data [] s.data).map (fun l => ⟨l⟩)

/-- Kernel-reducible `String.intercalate`. -/
def strIntercalate (sep : String) : List String → String
  | [] => ""
  | [x] => x
  | x :: y :: t => x ++ sep ++ strIntercalate sep (y :: t)

/-- Remove trailing whitespace (kernel-reducible `String.trimRight`,
modelling the `\s*` tail of a line-anchored regex). -/
def trimRightL (s : String) : String :=
  ⟨(s.data.reverse.dropWhile Char.isWhitespace).reverse⟩

/-- ASCII lower-casing, modelling `strings.ToLower` on the ASCII pattern
texts used by the detector. -/
def lowerStr (s : String) : String :=
  ⟨s.data.map Char.toLower⟩

/-- Case-insensitive literal matcher: models a Go `(?i)` regex whose body is
a literal string; `needle` is given already lower-cased. -/
def lcontains (needle : String) (s : String) : Bool :=
  strContainsSub needle (lowerStr s)

/-- Matcher for a `(?m)...\s*$` line-anchored Go regex with a literal body:
true when some line of `s`, after trailing whitespace is removed, ends with
the literal `suf`. -/
def lineEndsWith (suf : String) (s : String) : Bool :=
  (strSplitOn s "\n").any (fun l => suf.data.isSuffixOf (trimRightL l).data)

namespace Claude

/-- Go `claude.SessionState` (detector.go lines 11-19): an enum with values
StateUnknown, StateIdle, StateActive, StateThinking, StateUrgent. -/
inductive SessionState where
  | stateUnknown
  | stateIdle
  | stateActive
  | stateThinking
  | stateUrgent
deriving DecidableEq, Repr

/-- Go `claude.SessionInfo` (detector.go lines 37-42); `thinkingTime` is a
duration in nanoseconds. -/
structure SessionInfo where
  state : SessionState
  tokens : Int
  thinkingTime : Int
  lastLine : String
deriving DecidableEq, Repr

/-- Go `claude.Detector` (detector.go lines 45-55); the compiled regex lists
are modelled as Boolean matcher lists.  The `ansiPattern` field is fixed by
`NewDetector`, so `stripANSI` is embedded as the free function below; the
token/thinking/mode extraction patterns serve only `ParseInfo`/`DetectMode`,
which no claim concerns, and are omitted. -/
structure Detector where
  urgentPatterns : List (String → Bool)
  thinkingPatterns : List (String → Bool)
  idlePatterns : List (String → Bool)
  claudePatterns : List (String → Bool)

/-- One step of the escape-sequence scanner underlying `stripANSI`.  The
accumulator holds the output produced so far and a pending buffer that is a
prefix of a potential `ESC [ [0-9;]* m` match. -/
def stripFold (acc : List Char × List Char) (c : Char) : List Char × List Char :=
  let out := acc.1
  let pend := acc.2
  match pend with
  | [] =>
    if c = Char.ofNat 27 then (out, [c]) else (out ++ [c], [])
  | [e] =>
    if c = '[' then (out, [e, c])
    else if c = Char.ofNat 27 then (out ++ [e], [c])
    else (out ++ [e] ++ [c], [])
  | _ =>
    if c.isDigit || c = ';' then (out, pend ++ [c])
    else if c = 'm' then (out, [])
    else if c = Char.ofNat 27 then (out ++ pend, [c])
    else (out ++ pend ++ [c], [])

/-- Go `Detector.stripANSI` (detector.go lines 208-210): remove every
occurrence of the regex `ESC [ [0-9;]* m` (leftmost, non-overlapping) from
the string. -/
def stripANSI (s : String) : String :=
  let r := s.data.foldl stripFold ([], [])
  ⟨r.1 ++ r.2⟩

/-- Go `Detector.getLastLines` (detector.go lines 212-218): keep only the
last `n` newline-separated lines of `content`. -/
def getLastLines (content : String) (n : Nat) : String :=
  let lines := strSplitOn content "\n"
  if lines.length ≤ n then content
  else strIntercalate "\n" (lines.drop (lines.length - n))

/-- Go `Detector.DetectState` (detector.go lines 121-148): strip ANSI
escapes, restrict to the last 20 lines, then test the pattern groups in
strict priority order urgent → thinking → idle, defaulting to active.
The `lastContent`/`lastCapture` parameters are unused, as in the source. -/
def Detector.DetectState (d : Detector) (content : String)
    (_lastContent : String) (_lastCapture : Int) : SessionState :=
  let stripped := stripANSI content
  let lines := getLastLines stripped 20
  if d.urgentPatterns.any (fun p => p lines) then .stateUrgent
  else if d.thinkingPatterns.any (fun p => p lines) then .stateThinking
  else if d.idlePatterns.any (fun p => p lines) then .stateIdle
  else .stateActive

/-- Go `Detector.IsClaudeSession` (detector.go lines 110-118). -/
def Detector.IsClaudeSession (d : Detector) (content : String) : Bool :=
  d.claudePatterns.any (fun p => p (stripANSI content))

/-- Spinner glyph alternatives of the thinking regex `⠋|⠙|⠹|⠸|⠼|⠴|⠦|⠧|⠇|⠏`. -/
def spinnerChars : List Char := "⠋⠙⠹⠸⠼⠴⠦⠧⠇⠏".data

/-- Go `NewDetector` (detector.go lines 58-107).  Each Go regex is modelled
by a matcher: `(?i)` literals by case-insensitive substring tests, plain
literals by substring tests, `(?m)...\s*$` patterns by trimmed line-suffix
tests, the spinner alternation by a character test, `\(ctrl.* to interrupt\)`
by a same-line two-part test, and `thought for \d+` by a digit-after-literal
test. -/
def NewDetector : Detector where
  urgentPatterns :=
    [ lcontains "[y/n]"
    , lcontains "[y/n]"
    , lcontains "permission requested"
    , lcontains "allow?"
    , lcontains "proceed?"
    , lcontains "are you sure"
    , lcontains "continue?"
    , lcontains "(yes/no)"
    , lcontains "press any key"
    , lcontains "hit enter"
    , lcontains "chat about this"
    , lcontains "skip interview and plan"
    , lcontains "ready to submit your answers" ]
  thinkingPatterns :=
    [ lcontains "thinking..."
    , lcontains "thinking…"
    , lcontains "reasoning"
    , fun s => spinnerChars.any (fun c => s.data.contains c)
    , strContainsSub "Working..."
    , strContainsSub "Processing..."
    , strContainsSub "(esc to cancel)"
    , fun s => (strSplitOn s "\n").any
        (fun l => ((strSplitOn l "(ctrl").tail).any (fun t => strContainsSub " to interrupt)" t))
    , fun s => ((strSplitOn (lowerStr s) "thought for ").tail).any
        (fun t => (t.data.headD ' ').isDigit)
    , lcontains "thinking" ]
  idlePatterns :=
    [ lineEndsWith "❯"
    , lineEndsWith ">"
    , lineEndsWith "claude>"
    , strContainsSub "↵ send"
    , strContainsSub "⏵⏵"
    , strContainsSub "▐▛███▜▌" ]
  claudePatterns :=
    [ strContainsSub "Claude Code"
    , strContainsSub "claude>"
    , strContainsSub "❯"
    , strContainsSub "ing... (ctrl" ]

end Claude

end Ccmanager

namespace Ccmanager

open Claude

/-- C1: for every detector and input text, if after stripping ANSI escape
sequences some urgent pattern and some idle pattern both match within the
last-20-lines window, then `Detector.DetectState` returns the urgent
("needs input") state: urgent patterns take strict priority over thinking
and idle patterns. -/
theorem c1_urgent_beats_idle (d : Detector) (content lastContent : String)
    (lastCapture : Int)
    (hu : d.urgentPatterns.any
      (fun p => p (getLastLines (stripANSI content) 20)) = true)
    (_hi : d.idlePatterns.any
      (fun p => p (getLastLines (stripANSI content) 20)) = true) :
    d.DetectState content lastContent lastCapture = SessionState.stateUrgent := by
  unfold Detector.DetectState
  simp only [hu, if_true]

/-- C1 witness: on a concrete capture where the urgent pattern `[y/N]` and
the idle prompt glyph `❯` both match inside the window, `NewDetector`
classifies the text as urgent. -/
theorem c1_witness :
    NewDetector.DetectState "Are you sure? [y/N]\n❯ " "" 0
      = SessionState.stateUrgent :=
  c1_urgent_beats_idle NewDetector "Are you sure? [y/N]\n❯ " "" 0
    (by decide) (by decide)

end Ccmanager

namespace Ccmanager

namespace Usage

/-- Go `usage.TokenUsage` (types.go lines 6-11): four token counters.
`int64` counters are modelled as `Int`. -/
structure TokenUsage where
  InputTokens : Int
  OutputTokens : Int
  CacheCreationInputTokens : Int
  CacheReadInputTokens : Int
deriving DecidableEq, Repr

/-- Go `TokenUsage.Add` (types.go lines 14-19): componentwise sum.  The Go
method mutates its receiver; it is embedded as the function returning the
updated receiver. -/
def TokenUsage.Add (t other : TokenUsage) : TokenUsage where
  InputTokens := t.InputTokens + other.InputTokens
  OutputTokens := t.OutputTokens + other.OutputTokens
  CacheCreationInputTokens := t.CacheCreationInputTokens + other.CacheCreationInputTokens
  CacheReadInputTokens := t.CacheReadInputTokens + other.CacheReadInputTokens

/-- Go `TokenUsage.TotalInput` (types.go lines 22-24). -/
def TokenUsage.TotalInput (t : TokenUsage) : Int :=
  t.InputTokens + t.CacheCreationInputTokens + t.CacheReadInputTokens

/-- Zero value of `TokenUsage` (the Go struct zero value, the initial
accumulator of the transcript parser). -/
def TokenUsage.zero : TokenUsage := ⟨0, 0, 0, 0⟩

/-- Go `usage.SessionUsage` (types.go lines 27-34); `EstimatedCost`
(`float64`) is modelled as a rational, `LastUpdated` as nanoseconds. -/
structure SessionUsage where
  SessionID : String
  ProjectPath : String
  TotalUsage : TokenUsage
  EstimatedCost : Rat
  Model : String
  LastUpdated : Int
deriving DecidableEq, Repr

end Usage

open Usage

/-- C5: `TotalInput` is the sum of the input, cache-creation and cache-read
counters, and `Add` is the componentwise sum over the four counters, hence
commutative and associative. -/
theorem c5_tokenusage_algebra :
    (∀ a : TokenUsage,
      a.TotalInput = a.InputTokens + a.CacheCreationInputTokens + a.CacheReadInputTokens) ∧
    (∀ a b : TokenUsage,
      a.Add b = ⟨a.InputTokens + b.InputTokens, a.OutputTokens + b.OutputTokens,
        a.CacheCreationInputTokens + b.CacheCreationInputTokens,
        a.CacheReadInputTokens + b.CacheReadInputTokens⟩) ∧
    (∀ a b : TokenUsage, a.Add b = b.Add a) ∧
    (∀ a b c : TokenUsage, (a.Add b).Add c = a.Add (b.Add c)) := by
  refine ⟨fun a => rfl, fun a b => rfl, fun a b => ?_, fun a b c => ?_⟩ <;>
    · simp only [TokenUsage.Add, TokenUsage.mk.injEq]
      omega

end Ccmanager

namespace Ccmanager

namespace Usage

/-- Nested `message` object of Go `jsonlMessage` (parser.go lines 13-24). -/
structure JsonlInnerMessage where
  model : String
  usage : TokenUsage
deriving DecidableEq, Repr

/-- Go `jsonlMessage` (parser.go lines 13-24), the decoded form of one
transcript line. -/
structure JsonlMessage where
  type : String
  message : JsonlInnerMessage
deriving DecidableEq, Repr

/-- One iteration of the scan loop of `ParseSessionFile` (parser.go lines
44-66).  A transcript line is represented by its JSON decode outcome:
`none` for an empty or malformed line (`json.Unmarshal` failed), `some msg`
for a decoded record.  The accumulator is the running
(`TotalUsage`, `Model`) pair of the `SessionUsage` under construction. -/
def parseLine (acc : TokenUsage × String) (line : Option JsonlMessage) :
    TokenUsage × String :=
  match line with
  | none => acc
  | some msg =>
    if msg.type = "assistant" then
      (acc.1.Add msg.message.usage,
       if msg.message.model ≠ "" then msg.message.model else acc.2)
    else acc

/-- Accumulated (`TotalUsage`, `Model`) of `ParseSessionFile` over a
sequence of transcript lines, starting from the zero struct values. -/
def parseSessionLines (lines : List (Option JsonlMessage)) : TokenUsage × String :=
  lines.foldl parseLine (TokenUsage.zero, "")

/-- Records of the lines that decode successfully and carry the
`"assistant"` type tag, in order. -/
def assistantRecords (lines : List (Option JsonlMessage)) : List JsonlMessage :=
  (lines.filterMap id).filter (fun m => m.type == "assistant")

/-- Componentwise accumulation of the usage counters of a record list. -/
def sumUsageFrom (u : TokenUsage) (l : List JsonlMessage) : TokenUsage :=
  l.foldl (fun a m => a.Add m.message.usage) u

/-- Fold computing the model surfaced after processing a record list,
starting from `m`. -/
def lastModelFrom (m : String) (l : List JsonlMessage) : String :=
  l.foldl (fun acc r => if r.message.model ≠ "" then r.message.model else acc) m

/-- Model of the most recently seen record with a non-empty model field
(empty when there is none). -/
def lastNonEmptyModel (l : List JsonlMessage) : String :=
  ((l.map (fun r => r.message.model)).filter (fun s => s != "")).getLastD ""

theorem parseLine_foldl (lines : List (Option JsonlMessage)) :
    ∀ (u : TokenUsage) (m : String),
    lines.foldl parseLine (u, m) =
      (sumUsageFrom u (assistantRecords lines),
       lastModelFrom m (assistantRecords lines)) := by
  induction lines with
  | nil => intro u m; rfl
  | cons line t ih =>
    intro u m
    cases line with
    | none => simpa [parseLine, assistantRecords] using ih u m
    | some msg =>
      by_cases h : msg.type = "assistant"
      · simp [parseLine, assistantRecords, h, sumUsageFrom, lastModelFrom,
          List.filter_cons, ih]
      · simp [parseLine, assistantRecords, h, List.filter_cons, ih u m]

theorem sumUsageFrom_components (l : List JsonlMessage) :
    ∀ u : TokenUsage,
    (sumUsageFrom u l).InputTokens
        = u.InputTokens + ((l.map (fun m => m.message.usage.InputTokens)).sum) ∧
    (sumUsageFrom u l).OutputTokens
        = u.OutputTokens + ((l.map (fun m => m.message.usage.OutputTokens)).sum) ∧
    (sumUsageFrom u l).CacheCreationInputTokens
        = u.CacheCreationInputTokens
          + ((l.map (fun m => m.message.usage.CacheCreationInputTokens)).sum) ∧
    (sumUsageFrom u l).CacheReadInputTokens
        = u.CacheReadInputTokens
          + ((l.map (fun m => m.message.usage.CacheReadInputTokens)).sum) := by
  induction l with
  | nil => intro u; simp [sumUsageFrom]
  | cons r t ih =>
    intro u
    obtain ⟨h1, h2, h3, h4⟩ := ih (u.Add r.message.usage)
    simp only [sumUsageFrom, List.foldl_cons, List.map_cons, List.sum_cons] at h1 h2 h3 h4 ⊢
    refine ⟨?_, ?_, ?_, ?_⟩
    · rw [h1]; simp only [TokenUsage.Add]; ring
    · rw [h2]; simp only [TokenUsage.Add]; ring
    · rw [h3]; simp only [TokenUsage.Add]; ring
    · rw [h4]; simp only [TokenUsage.Add]; ring

theorem lastModelFrom_getLastD (l : List JsonlMessage) :
    ∀ m : String,
    lastModelFrom m l
      = ((l.map (fun r => r.message.model)).filter (fun s => s != "")).getLastD m := by
  induction l with
  | nil => intro m; rfl
  | cons r t ih =>
    intro m
    simp only [lastModelFrom, List.foldl_cons, List.map_cons, List.filter_cons]
    by_cases h : r.message.model = ""
    · rw [if_neg (by simp [h]), if_neg (by simp [h])]
      have hm := ih m
      simp only [lastModelFrom] at hm
      exact hm
    · rw [if_pos h, if_pos (by simp [h]), List.getLastD_cons]
      have hm := ih r.message.model
      simp only [lastModelFrom] at hm
      exact hm

end Usage

open Usage

/-- C6: over any sequence of transcript lines (each represented by its JSON
decode outcome), the parser's accumulated `TokenUsage` is the componentwise
sum of the usage counters of exactly the successfully decoded
`"assistant"`-typed records, the surfaced model is the model of the most
recent assistant record with a non-empty model field, and the spec's
concrete two-line example yields totals (250, 125, 200, 800). -/
theorem c6_parser_accumulation :
    (∀ lines : List (Option JsonlMessage),
      (parseSessionLines lines).1.InputTokens
          = ((assistantRecords lines).map (fun m => m.message.usage.InputTokens)).sum ∧
      (parseSessionLines lines).1.OutputTokens
          = ((assistantRecords lines).map (fun m => m.message.usage.OutputTokens)).sum ∧
      (parseSessionLines lines).1.CacheCreationInputTokens
          = ((assistantRecords lines).map
              (fun m => m.message.usage.CacheCreationInputTokens)).sum ∧
      (parseSessionLines lines).1.CacheReadInputTokens
          = ((assistantRecords lines).map
              (fun m => m.message.usage.CacheReadInputTokens)).sum ∧
      (parseSessionLines lines).2 = lastNonEmptyModel (assistantRecords lines)) ∧
    parseSessionLines
      [ some ⟨"assistant", ⟨"claude-sonnet-4", ⟨100, 50, 200, 300⟩⟩⟩
      , some ⟨"assistant", ⟨"claude-sonnet-4", ⟨150, 75, 0, 500⟩⟩⟩ ]
      = (⟨250, 125, 200, 800⟩, "claude-sonnet-4") := by
  constructor
  · intro lines
    have hf := parseLine_foldl lines TokenUsage.zero ""
    obtain ⟨h1, h2, h3, h4⟩ := sumUsageFrom_components (assistantRecords lines) TokenUsage.zero
    have hm := lastModelFrom_getLastD (assistantRecords lines) ""
    have hfst : (parseSessionLines lines).1 = sumUsageFrom TokenUsage.zero (assistantRecords lines) := by
      simp [parseSessionLines, hf]
    have hsnd : (parseSessionLines lines).2 = lastModelFrom "" (assistantRecords lines) := by
      simp [parseSessionLines, hf]
    refine ⟨?_, ?_, ?_, ?_, ?_⟩
    · rw [hfst, h1]; simp [TokenUsage.zero]
    · rw [hfst, h2]; simp [TokenUsage.zero]
    · rw [hfst, h3]; simp [TokenUsage.zero]
    · rw [hfst, h4]; simp [TokenUsage.zero]
    · rw [hsnd, hm]; simp [lastNonEmptyModel]
  · rfl

end Ccmanager

namespace Ccmanager

namespace Daemon

/-- Go `tmux.Pane`. -/
structure Pane where
  WindowIndex : Int
  PaneIndex : Int
  Active : Bool
deriving DecidableEq, Repr

/-- Go `daemon.EventType` (monitor.go lines 45-52). -/
inductive EventType where
  | sessionDiscovered
  | sessionClosed
  | stateChanged
  | taskCompleted
  | urgent
  | debug
deriving DecidableEq, Repr

/-- Go `daemon.Event` (monitor.go lines 34-40).  Fields left unset by a Go
struct literal take their zero value (`stateUnknown`, `""`, `0`).  The Go
field `Type` is spelled `type` here because `Type` is reserved in Lean. -/
structure Event where
  type : EventType
  Session : String
  State : Claude.SessionState
  Time : Int
  Message : String
deriving DecidableEq, Repr

/-- Go `daemon.SessionState` (monitor.go lines 17-31), the per-session
tracking record owned by the Monitor. -/
structure SessionState where
  Name : String
  State : Claude.SessionState
  LastContent : String
  LastCapture : Int
  Tokens : Int
  ThinkingTime : Int
  LastLine : String
  Created : Int
  Attached : Bool
  ClaudePane : Option Pane
  WorkingDir : String
  Usage : Option Usage.SessionUsage
  ClaudeSessionID : String
deriving DecidableEq, Repr

/-- Events emitted by `Monitor.poll` for one already-tracked session
(monitor.go lines 323-366): nothing when the classified state is unchanged;
otherwise a state-changed event, then a task-completed event when the
transition leaves thinking into idle or active, then an urgent event
(carrying the last non-empty line) when the new state is urgent. -/
def pollUpdateEvents (name : String) (oldState newState : Claude.SessionState)
    (now : Int) (lastLine : String) : List Event :=
  if oldState = newState then []
  else
    [⟨.stateChanged, name, newState, now, ""⟩]
    ++ (if oldState = .stateThinking
          ∧ (newState = .stateIdle ∨ newState = .stateActive)
        then [⟨.taskCompleted, name, newState, now, ""⟩] else [])
    ++ (if newState = .stateUrgent
        then [⟨.urgent, name, newState, now, lastLine⟩] else [])

/-- Record mutation performed by `Monitor.poll` on an already-tracked
session (monitor.go lines 328-335): the classification, capture, parse-info
and pane fields are refreshed; every other field — in particular
`ClaudeSessionID`, `WorkingDir`, `Usage`, `Name`, `Created` — is left
untouched. -/
def updateExisting (existing : SessionState) (newState : Claude.SessionState)
    (content : String) (now : Int) (info : Claude.SessionInfo)
    (attached : Bool) (claudePane : Option Pane) : SessionState :=
  { existing with
    State := newState
    LastContent := content
    LastCapture := now
    Tokens := info.tokens
    ThinkingTime := info.thinkingTime
    LastLine := info.lastLine
    Attached := attached
    ClaudePane := claudePane }

/-- Per-session effect of `Monitor.updateUsage` (monitor.go lines 159-189):
sessions with an empty working directory are skipped; otherwise usage is
looked up by the pair (working directory, locked `ClaudeSessionID`) —
`usage.GetSessionByID` — and stored only on success.  `lookup` stands for
`usage.GetSessionByID`, with `none` for an error or missing file. -/
def updateUsageStep (lookup : String → String → Option Usage.SessionUsage)
    (s : SessionState) : SessionState :=
  if s.WorkingDir = "" then s
  else
    match lookup s.WorkingDir s.ClaudeSessionID with
    | none => s
    | some u => { s with Usage := some u }

/-- Record built by the discovery branch of `Monitor.poll` (monitor.go
lines 295-309); `claudeSessionID` is the identifier locked at discovery
(persisted value, else the most recently modified transcript). -/
def mkDiscoveredSession (name : String) (state : Claude.SessionState)
    (content : String) (now : Int) (info : Claude.SessionInfo) (created : Int)
    (attached : Bool) (claudePane : Option Pane) (workingDir : String)
    (initialUsage : Option Usage.SessionUsage) (claudeSessionID : String) :
    SessionState where
  Name := name
  State := state
  LastContent := content
  LastCapture := now
  Tokens := info.tokens
  ThinkingTime := info.thinkingTime
  LastLine := info.lastLine
  Created := created
  Attached := attached
  ClaudePane := claudePane
  WorkingDir := workingDir
  Usage := initialUsage
  ClaudeSessionID := claudeSessionID

/-- Operations the Monitor ever applies to a tracked session's record after
discovery: the poll-cycle refresh and the usage sub-cycle refresh. -/
inductive MonitorOp where
  | pollUpdate (newState : Claude.SessionState) (content : String) (now : Int)
      (info : Claude.SessionInfo) (attached : Bool) (claudePane : Option Pane)
  | usageRefresh (lookup : String → String → Option Usage.SessionUsage)

/-- Apply one Monitor operation to a tracked session record. -/
def applyOp (s : SessionState) : MonitorOp → SessionState
  | .pollUpdate ns content now info attached pane =>
      updateExisting s ns content now info attached pane
  | .usageRefresh lookup => updateUsageStep lookup s

theorem applyOp_claudeSessionID (s : SessionState) (op : MonitorOp) :
    (applyOp s op).ClaudeSessionID = s.ClaudeSessionID := by
  cases op with
  | pollUpdate ns content now info attached pane => rfl
  | usageRefresh lookup =>
    simp only [applyOp, updateUsageStep]
    split
    · rfl
    · split <;> rfl

/-- Capacity of the Monitor's event channel: `make(chan Event, 100)` in
`NewMonitor` (monitor.go line 80). -/
def monitorEventCapacity : Nat := 100

/-- Producer-side behaviour of a send on the buffered event channel.  Every
send in monitor.go is a plain `m.eventCh <- ev` with no `select`/`default`:
with buffer room the event is appended (`some`), with a full buffer the
producer blocks (`none`).  No code path discards an event. -/
def chanSend (capacity : Nat) (q : List Event) (e : Event) : Option (List Event) :=
  if q.length < capacity then some (q ++ [e]) else none

/-- Go `Monitor.debugLog` (monitor.go lines 86-95): a no-op when the debug
flag is off, otherwise a plain blocking send of the debug event. -/
def debugLogSend (debug : Bool) (q : List Event) (e : Event) : Option (List Event) :=
  if debug then chanSend monitorEventCapacity q e else some q

end Daemon

end Ccmanager

namespace Ccmanager

open Daemon

/-- C2: on a poll step over an already-tracked session, an unchanged
classified state emits no event for that session; a changed state emits
exactly one state-changed event, and a transition from thinking into idle
or active makes the emitted list exactly the state-changed event followed
immediately by the task-completed event.  (Debug logging carries no session
name and is modelled separately by `debugLogSend`.) -/
theorem c2_state_change_events (name : String) (oldState newState : Claude.SessionState)
    (now : Int) (lastLine : String) :
    (oldState = newState → pollUpdateEvents name oldState newState now lastLine = []) ∧
    (oldState ≠ newState →
      ((pollUpdateEvents name oldState newState now lastLine).filter
        (fun e => e.type == EventType.stateChanged)).length = 1 ∧
      (pollUpdateEvents name oldState newState now lastLine).head? =
        some ⟨.stateChanged, name, newState, now, ""⟩ ∧
      ((oldState = .stateThinking
          ∧ (newState = .stateIdle ∨ newState = .stateActive)) →
        pollUpdateEvents name oldState newState now lastLine =
          [⟨.stateChanged, name, newState, now, ""⟩,
           ⟨.taskCompleted, name, newState, now, ""⟩])) := by
  constructor
  · intro h
    simp [pollUpdateEvents, h]
  · intro hne
    cases oldState <;> cases newState <;>
      simp_all [pollUpdateEvents, List.filter] <;> rfl

/-- C2 witness: a concrete thinking-to-idle transition emits exactly the
state-changed event followed by the task-completed event, and a concrete
unchanged poll emits nothing. -/
theorem c2_witness :
    pollUpdateEvents "s1" .stateThinking .stateThinking 7 "ln" = [] ∧
    pollUpdateEvents "s1" .stateThinking .stateIdle 7 "ln" =
      [⟨.stateChanged, "s1", .stateIdle, 7, ""⟩,
       ⟨.taskCompleted, "s1", .stateIdle, 7, ""⟩] :=
  ⟨(c2_state_change_events "s1" .stateThinking .stateThinking 7 "ln").1 rfl,
   ((c2_state_change_events "s1" .stateThinking .stateIdle 7 "ln").2
      (by decide)).2.2 (by decide)⟩

/-- C3: the locked transcript identifier of a tracked session is set at
discovery (`mkDiscoveredSession` stores the identifier chosen then) and is
preserved by every sequence of Monitor operations applied afterwards; and
the usage refresh queries the usage store only at the pair
(working directory, locked identifier) — two lookup functions agreeing
there produce the same refreshed record. -/
theorem c3_locked_transcript_id (s : SessionState) (ops : List MonitorOp) :
    ((ops.foldl applyOp s).ClaudeSessionID = s.ClaudeSessionID) ∧
    (∀ lookup lookup' : String → String → Option Usage.SessionUsage,
      lookup s.WorkingDir s.ClaudeSessionID = lookup' s.WorkingDir s.ClaudeSessionID →
      updateUsageStep lookup s = updateUsageStep lookup' s) ∧
    (∀ name state content now info created attached claudePane workingDir
        initialUsage claudeSessionID,
      (mkDiscoveredSession name state content now info created attached
        claudePane workingDir initialUsage claudeSessionID).ClaudeSessionID
        = claudeSessionID) := by
  refine ⟨?_, ?_, fun _ _ _ _ _ _ _ _ _ _ _ => rfl⟩
  · induction ops generalizing s with
    | nil => rfl
    | cons op t ih => rw [List.foldl_cons, ih (applyOp s op), applyOp_claudeSessionID]
  · intro lookup lookup' h
    simp only [updateUsageStep, h]

/-- C3 witness: a concrete discovered session keeps its locked identifier
across a poll refresh followed by a usage refresh, and the usage refresh is
insensitive to lookup values away from the locked key. -/
theorem c3_witness :
    (([MonitorOp.pollUpdate .stateThinking "c" 1 ⟨.stateThinking, 5, 0, "l"⟩ true none,
       MonitorOp.usageRefresh (fun _ _ => none)].foldl applyOp
      (mkDiscoveredSession "s1" .stateIdle "" 0 ⟨.stateIdle, 0, 0, ""⟩ 0 false
        none "/w" none "lock-1")).ClaudeSessionID = "lock-1") ∧
    updateUsageStep (fun _ _ => none)
        (mkDiscoveredSession "s1" .stateIdle "" 0 ⟨.stateIdle, 0, 0, ""⟩ 0 false
          none "/w" none "lock-1")
      = updateUsageStep (fun d i => if d = "/w" ∧ i = "lock-1" then none
            else some ⟨"x", "y", ⟨1, 1, 1, 1⟩, 0, "m", 0⟩)
        (mkDiscoveredSession "s1" .stateIdle "" 0 ⟨.stateIdle, 0, 0, ""⟩ 0 false
          none "/w" none "lock-1") :=
  ⟨(c3_locked_transcript_id
      (mkDiscoveredSession "s1" .stateIdle "" 0 ⟨.stateIdle, 0, 0, ""⟩ 0 false
        none "/w" none "lock-1")
      [MonitorOp.pollUpdate .stateThinking "c" 1 ⟨.stateThinking, 5, 0, "l"⟩ true none,
       MonitorOp.usageRefresh (fun _ _ => none)]).1,
   (c3_locked_transcript_id
      (mkDiscoveredSession "s1" .stateIdle "" 0 ⟨.stateIdle, 0, 0, ""⟩ 0 false
        none "/w" none "lock-1") []).2.1
      (fun _ _ => none)
      (fun d i => if d = "/w" ∧ i = "lock-1" then none
        else some ⟨"x", "y", ⟨1, 1, 1, 1⟩, 0, "m", 0⟩)
      (by rfl)⟩

/-- Debug event as built by `debugLog`: only the type, message and time
fields are set. -/
def c4DebugEvent : Event := ⟨.debug, "", .stateUnknown, 3, "poll"⟩

/-- A full event queue: 100 events, the channel capacity of `NewMonitor`. -/
def c4FullQueue : List Event := List.replicate 100 c4DebugEvent

/-- C4 counterexample: with the queue full, `debugLog`'s send does not
silently drop the debug event leaving the queue unchanged — it is a plain
channel send, so the producer blocks (modelled by `none`). -/
theorem c4_counterexample :
    debugLogSend true c4FullQueue c4DebugEvent = none ∧
    ¬ debugLogSend true c4FullQueue c4DebugEvent = some c4FullQueue := by
  constructor <;> simp [debugLogSend, chanSend, c4FullQueue, monitorEventCapacity]

/-- C4 (amended): no event of any type is ever dropped.  Every emission in
the Monitor, debug events included, is a plain blocking send on the
capacity-100 event channel: with buffer room the event is appended, and on
a full buffer the producer blocks (it does not drop the event and move on).
In particular the debug path goes through the very same send as discovery,
closure, state-changed, task-completed and urgent events. -/
theorem c4_blocking_send_no_drop (q : List Event) (e : Event) :
    (q.length < monitorEventCapacity →
      chanSend monitorEventCapacity q e = some (q ++ [e])) ∧
    (monitorEventCapacity ≤ q.length →
      chanSend monitorEventCapacity q e = none) ∧
    debugLogSend true q e = chanSend monitorEventCapacity q e := by
  refine ⟨fun h => ?_, fun h => ?_, rfl⟩
  · simp [chanSend, h]
  · simp [chanSend, Nat.not_lt.mpr h]

/-- C4 witness: a send on a non-full queue appends, a send on the full
queue blocks, and the debug path coincides with the plain send there. -/
theorem c4_witness :
    chanSend monitorEventCapacity [] c4DebugEvent = some [c4DebugEvent] ∧
    chanSend monitorEventCapacity c4FullQueue c4DebugEvent = none ∧
    debugLogSend true c4FullQueue c4DebugEvent
      = chanSend monitorEventCapacity c4FullQueue c4DebugEvent :=
  ⟨(c4_blocking_send_no_drop [] c4DebugEvent).1 (by decide),
   (c4_blocking_send_no_drop c4FullQueue c4DebugEvent).2.1 (by decide),
   (c4_blocking_send_no_drop c4FullQueue c4DebugEvent).2.2⟩

end Ccmanager

namespace Ccmanager

namespace Game

/-- One second in nanoseconds (Go `time.Second`). -/
def secondNs : Int := 1000000000

/-- One minute in nanoseconds (Go `time.Minute`). -/
def minuteNs : Int := 60000000000

/-- Go `game.PomodoroState`: stopped, paused, work, short break, long
break. -/
inductive PomodoroState where
  | stopped
  | paused
  | work
  | shortBreak
  | longBreak
deriving DecidableEq, Repr

/-- Go `game.PomodoroTimer`: state machine data.  Durations are
nanoseconds; the `onComplete`/`onTick` callbacks are omitted — completion
is observable as the work-to-break state change. -/
structure PomodoroTimer where
  state : PomodoroState
  pausedState : PomodoroState
  remaining : Int
  lastTick : Int
  completed : Int
  workMinutes : Int
  shortBreakMinutes : Int
  longBreakMinutes : Int
  sessionsBeforeLongBreak : Int
deriving DecidableEq, Repr

/-- Go `NewPomodoroTimer`: stopped, zero counters, `lastTick` the creation
instant (`time.Now()` is passed in as `now`). -/
def NewPomodoroTimer (workMinutes shortBreakMinutes longBreakMinutes
    sessionsBeforeLongBreak : Int) (now : Int) : PomodoroTimer where
  state := .stopped
  pausedState := .stopped
  remaining := 0
  lastTick := now
  completed := 0
  workMinutes := workMinutes
  shortBreakMinutes := shortBreakMinutes
  longBreakMinutes := longBreakMinutes
  sessionsBeforeLongBreak := sessionsBeforeLongBreak

/-- Go `PomodoroTimer.Start`: only from stopped, enters work with a fresh
full work duration. -/
def PomodoroTimer.Start (p : PomodoroTimer) (now : Int) : PomodoroTimer :=
  if p.state = .stopped then
    { p with state := .work, remaining := p.workMinutes * minuteNs, lastTick := now }
  else p

/-- Go `PomodoroTimer.transition`: on expiry of work, increment the
completed counter, then enter a long break (resetting the counter) once the
threshold is reached, else a short break; on expiry of either break, return
to work with a fresh work duration. -/
def PomodoroTimer.transition (p : PomodoroTimer) : PomodoroTimer :=
  match p.state with
  | .work =>
    let completed := p.completed + 1
    if completed ≥ p.sessionsBeforeLongBreak then
      { p with
        state := .longBreak
        remaining := p.longBreakMinutes * minuteNs
        completed := 0 }
    else
      { p with
        state := .shortBreak
        remaining := p.shortBreakMinutes * minuteNs
        completed := completed }
  | .shortBreak =>
      { p with state := .work, remaining := p.workMinutes * minuteNs }
  | .longBreak =>
      { p with state := .work, remaining := p.workMinutes * minuteNs }
  | _ => p

/-- Go `PomodoroTimer.Tick`: no-op when stopped or paused; otherwise charge
the wall-clock time since the last tick against `remaining`, transitioning
when the elapsed time reaches it. -/
def PomodoroTimer.Tick (p : PomodoroTimer) (now : Int) : PomodoroTimer :=
  if p.state = .stopped ∨ p.state = .paused then p
  else
    let elapsed := now - p.lastTick
    let p1 := { p with lastTick := now }
    if p1.remaining > elapsed then { p1 with remaining := p1.remaining - elapsed }
    else PomodoroTimer.transition { p1 with remaining := 0 }

/-- Go `game.APMTracker`: recorded action timestamps, the cached rate, and
the pruning window in seconds. -/
structure APMTracker where
  actions : List Int
  current : Int
  windowSeconds : Int
deriving DecidableEq, Repr

/-- Go `NewAPMTracker`. -/
def NewAPMTracker (windowSeconds : Int) : APMTracker where
  actions := []
  current := 0
  windowSeconds := windowSeconds

/-- Go `APMTracker.recalculate`: prune timestamps at or before
`now - window`, then extrapolate `count * minute / elapsed` with `elapsed`
clamped up from below to one second, or report the raw count once the span
reaches a minute.  The Go float64 arithmetic is modelled by exact integer
division (truncation toward zero, the semantics of Go's float-to-int
conversion for the non-negative values concerned; exact whenever, as at
every instance used here, the division is exact). -/
def APMTracker.recalculate (a : APMTracker) (now : Int) : APMTracker :=
  let cutoff := now - a.windowSeconds * secondNs
  let newActions := a.actions.filter (fun t => t > cutoff)
  match newActions with
  | [] => { a with actions := newActions, current := 0 }
  | t0 :: _ =>
    let count : Int := newActions.length
    let e0 := now - t0
    let elapsed := if e0 < secondNs then secondNs else e0
    if elapsed < minuteNs then
      { a with actions := newActions, current := count * minuteNs / elapsed }
    else
      { a with actions := newActions, current := count }

/-- Go `APMTracker.RecordAction`: append the timestamp and recalculate at
that instant. -/
def APMTracker.RecordAction (a : APMTracker) (t : Int) : APMTracker :=
  APMTracker.recalculate { a with actions := a.actions ++ [t] } t

/-- Go `APMTracker.Current`: the cached rate. -/
def APMTracker.Current (a : APMTracker) : Int :=
  a.current

/-- Go `game.ControlGroups` (the hotkey registry): slot assignments
(`map[int]string` read with the zero-value idiom, so a total function with
`""` for an empty slot), per-slot last-activation times (`map[int]time.Time`
read through the `, ok` idiom, so `Option`), and the double-tap threshold in
nanoseconds. -/
structure ControlGroups where
  groups : Int → String
  lastTap : Int → Option Int
  tapThreshold : Int

/-- Go `NewControlGroups`: empty maps, threshold given in milliseconds. -/
def NewControlGroups (doubleTapThresholdMs : Int) : ControlGroups where
  groups := fun _ => ""
  lastTap := fun _ => none
  tapThreshold := doubleTapThresholdMs * 1000000

/-- Go `ControlGroups.Assign`: unconditional overwrite of a slot. -/
def ControlGroups.Assign (c : ControlGroups) (groupNum : Int) (session : String) :
    ControlGroups :=
  { c with groups := fun k => if k = groupNum then session else c.groups k }

/-- Go `ControlGroups.Remove`: delete the slot's entry only when it
currently holds exactly the named session. -/
def ControlGroups.Remove (c : ControlGroups) (groupNum : Int) (session : String) :
    ControlGroups :=
  if c.groups groupNum = session then
    { c with groups := fun k => if k = groupNum then "" else c.groups k }
  else c

/-- Go `ControlGroups.Get`. -/
def ControlGroups.Get (c : ControlGroups) (groupNum : Int) : String :=
  c.groups groupNum

/-- Go `ControlGroups.Cycle`: return the slot's session and the double-tap
flag (set when the previous activation of this slot is strictly less than
the threshold ago), and record `now` as the slot's last activation
unconditionally.  `time.Now()` is passed in as `now`. -/
def ControlGroups.Cycle (c : ControlGroups) (groupNum : Int) (now : Int) :
    String × Bool × ControlGroups :=
  let doubleTap :=
    match c.lastTap groupNum with
    | some last => decide (now - last < c.tapThreshold)
    | none => false
  (c.groups groupNum, doubleTap,
    { c with lastTap := fun k => if k = groupNum then some now else c.lastTap k })

end Game

end Ccmanager

namespace Ccmanager

open Game

/-- C7: starting the interval timer from stopped enters work with remaining
equal to the configured work duration; a tick whose elapsed time has
consumed the full remaining work duration moves work to short break with
the completed counter incremented by one — or to long break with the
counter reset once the incremented counter reaches the threshold — and a
tick expiring either break returns to work leaving the completed counter
unchanged. -/
theorem c7_pomodoro_machine (p : PomodoroTimer) (now : Int) :
    (p.state = .stopped →
      (p.Start now).state = .work ∧
      (p.Start now).remaining = p.workMinutes * minuteNs) ∧
    (p.state = .work → p.remaining ≤ now - p.lastTick →
      (p.completed + 1 < p.sessionsBeforeLongBreak →
        (p.Tick now).state = .shortBreak ∧
        (p.Tick now).completed = p.completed + 1) ∧
      (p.sessionsBeforeLongBreak ≤ p.completed + 1 →
        (p.Tick now).state = .longBreak ∧
        (p.Tick now).completed = 0)) ∧
    ((p.state = .shortBreak ∨ p.state = .longBreak) →
      p.remaining ≤ now - p.lastTick →
      (p.Tick now).state = .work ∧
      (p.Tick now).completed = p.completed) := by
  refine ⟨fun h => ?_, fun hw he => ?_, fun hb he => ?_⟩
  · simp [PomodoroTimer.Start, h]
  · have hcond : ¬(p.state = PomodoroState.stopped ∨ p.state = PomodoroState.paused) := by
      simp [hw]
    have hnr : ¬ p.remaining > now - p.lastTick := by omega
    constructor
    · intro hlt
      have hni : ¬ p.completed + 1 ≥ p.sessionsBeforeLongBreak := by omega
      simp [PomodoroTimer.Tick, PomodoroTimer.transition, hcond, hnr, hw, hni]
    · intro hge
      have hi : p.completed + 1 ≥ p.sessionsBeforeLongBreak := by omega
      simp [PomodoroTimer.Tick, PomodoroTimer.transition, hcond, hnr, hw, hi]
  · have hcond : ¬(p.state = PomodoroState.stopped ∨ p.state = PomodoroState.paused) := by
      rcases hb with h | h <;> simp [h]
    have hnr : ¬ p.remaining > now - p.lastTick := by omega
    rcases hb with h | h <;>
      simp [PomodoroTimer.Tick, PomodoroTimer.transition, hcond, hnr, h]

/-- Concrete timer sitting in a short break, for the C7 witness. -/
def c7BreakTimer : PomodoroTimer :=
  ⟨.shortBreak, .stopped, 300000000000, 0, 1, 25, 5, 15, 4⟩

/-- C7 witness: a 25/5/15/4 timer started from stopped enters work with 25
minutes remaining; consuming the full 25 minutes in ticks enters short
break with one completed interval; a short break expiring returns to work
without touching the completed counter. -/
theorem c7_witness :
    ((NewPomodoroTimer 25 5 15 4 0).Start 0).state = PomodoroState.work ∧
    ((NewPomodoroTimer 25 5 15 4 0).Start 0).remaining = 1500000000000 ∧
    (((NewPomodoroTimer 25 5 15 4 0).Start 0).Tick 1500000000000).state
      = PomodoroState.shortBreak ∧
    (((NewPomodoroTimer 25 5 15 4 0).Start 0).Tick 1500000000000).completed = 1 ∧
    (c7BreakTimer.Tick 300000000000).state = PomodoroState.work ∧
    (c7BreakTimer.Tick 300000000000).completed = 1 :=
  ⟨((c7_pomodoro_machine (NewPomodoroTimer 25 5 15 4 0) 0).1 rfl).1,
   ((c7_pomodoro_machine (NewPomodoroTimer 25 5 15 4 0) 0).1 rfl).2,
   ((((c7_pomodoro_machine ((NewPomodoroTimer 25 5 15 4 0).Start 0)
        1500000000000).2.1 rfl (by decide)).1 (by decide)).1),
   ((((c7_pomodoro_machine ((NewPomodoroTimer 25 5 15 4 0).Start 0)
        1500000000000).2.1 rfl (by decide)).1 (by decide)).2),
   (((c7_pomodoro_machine c7BreakTimer 300000000000).2.2 (Or.inl rfl) (by decide)).1),
   (((c7_pomodoro_machine c7BreakTimer 300000000000).2.2 (Or.inl rfl) (by decide)).2)⟩

/-- C8 counterexample: the claim quantifies over every configured window,
but with a window of 0 seconds the pruning cutoff equals the recording
instant and the just-recorded action is pruned (`After` is strict), so the
rate read at the same instant is 0, not 60. -/
theorem c8_counterexample :
    ((NewAPMTracker 0).RecordAction 0).Current = 0 ∧
    ¬ ((NewAPMTracker 0).RecordAction 0).Current = 60 := by
  constructor <;> decide

/-- C8 (amended): for every tracker with a positive configured window (at
least one second) and every time `t`, recording exactly one action at `t`
and reading the rate at that same instant yields exactly 60: the single
action survives pruning, the elapsed time 0 is clamped up to one second,
and one action is extrapolated over the minute. -/
theorem c8_single_action_rate (w t : Int) (hw : 1 ≤ w) :
    ((NewAPMTracker w).RecordAction t).Current = 60 := by
  have h0 : (0:Int) < w := by omega
  simp [APMTracker.RecordAction, APMTracker.recalculate, APMTracker.Current,
    NewAPMTracker, List.filter, secondNs, minuteNs, h0]

/-- C8 witness: a tracker with the usual 60-second window reads rate 60
immediately after its first recorded action. -/
theorem c8_witness : ((NewAPMTracker 60).RecordAction 12345).Current = 60 :=
  c8_single_action_rate 60 12345 (by decide)

/-- C9: cycling the same slot twice with call times closer than the
double-activation threshold reports a double tap on the second call, and
farther apart than the threshold reports none; every `Cycle` call records
its call time as the slot's last activation regardless of the outcome, and
returns the slot's currently assigned session (the empty string when the
slot is unassigned). -/
theorem c9_cycle_double_tap (c : ControlGroups) (groupNum t1 t2 : Int) :
    (c.Cycle groupNum t1).1 = c.groups groupNum ∧
    ((c.Cycle groupNum t1).2.2).lastTap groupNum = some t1 ∧
    (t2 - t1 < c.tapThreshold →
      (((c.Cycle groupNum t1).2.2).Cycle groupNum t2).2.1 = true) ∧
    (c.tapThreshold < t2 - t1 →
      (((c.Cycle groupNum t1).2.2).Cycle groupNum t2).2.1 = false) ∧
    ((((c.Cycle groupNum t1).2.2).Cycle groupNum t2).2.2).lastTap groupNum
      = some t2 ∧
    (((c.Cycle groupNum t1).2.2).Cycle groupNum t2).1 = c.groups groupNum := by
  refine ⟨rfl, by simp [ControlGroups.Cycle], fun h => ?_, fun h => ?_,
    by simp [ControlGroups.Cycle], rfl⟩
  · simp [ControlGroups.Cycle, h]
  · have hn : ¬ (t2 - t1 < c.tapThreshold) := by omega
    simp [ControlGroups.Cycle, hn]

/-- C9 witness: with the 300 ms threshold, a second cycle of slot 1 after
100 ms is a double tap, after 400 ms it is not; both calls record their
activation instant and return the (unassigned) slot's empty session. -/
theorem c9_witness :
    (((NewControlGroups 300).Cycle 1 0).2.2.Cycle 1 100000000).2.1 = true ∧
    (((NewControlGroups 300).Cycle 1 0).2.2.Cycle 1 400000000).2.1 = false ∧
    ((NewControlGroups 300).Cycle 1 0).2.2.lastTap 1 = some 0 ∧
    (((NewControlGroups 300).Cycle 1 0).2.2.Cycle 1 400000000).2.2.lastTap 1
      = some 400000000 ∧
    (((NewControlGroups 300).Cycle 1 0).2.2.Cycle 1 400000000).1 = "" :=
  ⟨(c9_cycle_double_tap (NewControlGroups 300) 1 0 100000000).2.2.1 (by decide),
   (c9_cycle_double_tap (NewControlGroups 300) 1 0 400000000).2.2.2.1 (by decide),
   (c9_cycle_double_tap (NewControlGroups 300) 1 0 100000000).2.1,
   (c9_cycle_double_tap (NewControlGroups 300) 1 0 400000000).2.2.2.2.1,
   (c9_cycle_double_tap (NewControlGroups 300) 1 0 400000000).2.2.2.2.2⟩

/-- C10: `Remove` clears the slot only when it currently holds exactly the
named session; when the slot holds a different session the call leaves the
registry unchanged, and when the slot is empty every slot's assignment is
observably unchanged; in all cases no other slot's assignment and no
last-activation timestamp is touched. -/
theorem c10_remove_guarded (c : ControlGroups) (groupNum : Int) (session : String) :
    ((c.Remove groupNum session).lastTap = c.lastTap) ∧
    ((c.Remove groupNum session).tapThreshold = c.tapThreshold) ∧
    (c.groups groupNum = session →
      (c.Remove groupNum session).groups groupNum = "" ∧
      ∀ k, k ≠ groupNum → (c.Remove groupNum session).groups k = c.groups k) ∧
    (c.groups groupNum ≠ session → c.Remove groupNum session = c) ∧
    (c.groups groupNum = "" →
      ∀ k, (c.Remove groupNum session).groups k = c.groups k) := by
  refine ⟨?_, ?_, fun h => ⟨?_, fun k hk => ?_⟩, fun h => ?_, fun h k => ?_⟩
  · simp only [ControlGroups.Remove]; split <;> rfl
  · simp only [ControlGroups.Remove]; split <;> rfl
  · simp [ControlGroups.Remove, h]
  · simp [ControlGroups.Remove, h, hk]
  · simp [ControlGroups.Remove, h]
  · by_cases hc : c.groups groupNum = session
    · simp only [ControlGroups.Remove, if_pos hc]
      by_cases hk : k = groupNum
      · subst hk; simp [← h, hc]
      · simp [hk]
    · simp [ControlGroups.Remove, hc]

/-- C10 witness: with slot 2 holding "s-a", removing ("s-a", slot 2) clears
only slot 2; removing ("s-b", slot 2) is a no-op; removing from the empty
slot 3 changes no assignment. -/
theorem c10_witness :
    (((NewControlGroups 300).Assign 2 "s-a").Remove 2 "s-a").groups 2 = "" ∧
    (((NewControlGroups 300).Assign 2 "s-a").Remove 2 "s-a").groups 1
      = ((NewControlGroups 300).Assign 2 "s-a").groups 1 ∧
    ((NewControlGroups 300).Assign 2 "s-a").Remove 2 "s-b"
      = (NewControlGroups 300).Assign 2 "s-a" ∧
    (((NewControlGroups 300).Assign 2 "s-a").Remove 3 "s-a").groups 3
      = ((NewControlGroups 300).Assign 2 "s-a").groups 3 :=
  ⟨((c10_remove_guarded ((NewControlGroups 300).Assign 2 "s-a") 2 "s-a").2.2.1
      (by rfl)).1,
   ((c10_remove_guarded ((NewControlGroups 300).Assign 2 "s-a") 2 "s-a").2.2.1
      (by rfl)).2 1 (by decide),
   (c10_remove_guarded ((NewControlGroups 300).Assign 2 "s-a") 2 "s-b").2.2.2.1
      (by decide),
   (c10_remove_guarded ((NewControlGroups 300).Assign 2 "s-a") 3 "s-a").2.2.2.2
      (by rfl) 3⟩

end Ccmanager
